import Mathlib

/-!
Verification of the Kitchen order-registry component (Kitchen.hpp / Kitchen.cpp).

The Kitchen class derives from `ArrayBag<Dish>`.  The files `ArrayBag.hpp` and
`Dish.hpp` are collaborators of the component and are not part of the sources
being verified; they are modelled from the specification (§3 and §6): the
container is a fixed-capacity, unordered collection supporting add / remove of
one value-equal item / membership test / clear / size, and a dish is a value
type with name, ingredient list, non-negative integer prep time, price and a
cuisine tag from a closed seven-value enumeration, with full-field value
equality.  The container is modelled as a `List Dish` (append on add, erase of
the first value-equal occurrence on remove); since the container is unordered,
any single-occurrence removal discipline is a faithful model.

C++ `int` fields are modelled as `Int` (no claim approaches overflow range);
C++ `double` arithmetic in the two statistics queries is modelled as exact
rational arithmetic, with `std::round` modelled as round-half-away-from-zero.
-/

namespace KitchenSpec

/-- Modelled from the spec: the closed cuisine enumeration of `Dish.hpp`
(seven fixed values). -/
inductive CuisineType where
  | ITALIAN | MEXICAN | CHINESE | INDIAN | AMERICAN | FRENCH | OTHER
deriving DecidableEq, Repr

/-- Modelled from the spec: the `Dish` value type of `Dish.hpp` — a name, an
ordered ingredient list, a non-negative prep time, a price and a cuisine tag;
two dishes are equal iff every field compares equal.  The price participates
only in value equality, so it is modelled as an integer amount. -/
structure Dish where
  name : String
  ingredients : List String
  prepTime : Nat
  price : Int
  cuisine : CuisineType
deriving DecidableEq, Repr

/-- Modelled from the spec: Dish's rendering of its cuisine tag to a string
label, used by `Kitchen::tallyCuisineTypes` and the cuisine-type removal. -/
def Dish.getCuisineType (d : Dish) : String :=
  match d.cuisine with
  | .ITALIAN => "ITALIAN"
  | .MEXICAN => "MEXICAN"
  | .CHINESE => "CHINESE"
  | .INDIAN => "INDIAN"
  | .AMERICAN => "AMERICAN"
  | .FRENCH => "FRENCH"
  | .OTHER => "OTHER"

/-- Modelled from the spec: the container capacity is fixed at construction;
the spec does not name the value, so a concrete bound is chosen.  No claim
depends on its value. -/
def DEFAULT_CAPACITY : Nat := 200

/-- Modelled from the spec: `ArrayBag::add` — appends the entry if the bag is
not at capacity, reporting success. -/
def bagAdd (items : List Dish) (d : Dish) : List Dish × Bool :=
  if items.length < DEFAULT_CAPACITY then (items ++ [d], true) else (items, false)

/-- Modelled from the spec: `ArrayBag::remove` — removes one value-equal item
(the model erases the first occurrence; the container is unordered), failing
when none is present. -/
def bagRemove (items : List Dish) (d : Dish) : List Dish × Bool :=
  if d ∈ items then (items.erase d, true) else (items, false)

/-- The Kitchen state: the inherited container contents plus the two private
aggregate fields of `Kitchen.hpp` (C++ `int`, modelled as `Int`). -/
structure Kitchen where
  items : List Dish
  totalprep_time_ : Int
  countelaborate : Int
deriving DecidableEq, Repr

/-- `Kitchen::Kitchen()` — empty container, both aggregates zero. -/
def freshKitchen : Kitchen := ⟨[], 0, 0⟩

/-- The "elaborate" test exactly as written in `newOrder` / `serveDish`:
at least 5 ingredients and prep time at least 60. -/
def isElaborate (d : Dish) : Bool :=
  decide (5 ≤ d.ingredients.length) && decide (60 ≤ d.prepTime)

/-- `Kitchen::newOrder` (Kitchen.cpp lines 34–53): reject if an equal dish is
contained; otherwise `add`, and on success add the prep time to
`totalprep_time_` and bump `countelaborate` if the dish is elaborate. -/
def newOrder (k : Kitchen) (d : Dish) : Kitchen × Bool :=
  if d ∈ k.items then (k, false)
  else
    let r := bagAdd k.items d
    if r.2 then
      (⟨r.1,
        k.totalprep_time_ + (d.prepTime : Int),
        k.countelaborate + (if isElaborate d then 1 else 0)⟩, true)
    else (k, false)

/-- `Kitchen::serveDish` (Kitchen.cpp lines 64–83): fail if no equal dish is
contained; otherwise `remove`, and on success subtract the prep time and
decrement `countelaborate` if the dish is elaborate. -/
def serveDish (k : Kitchen) (d : Dish) : Kitchen × Bool :=
  if d ∈ k.items then
    let r := bagRemove k.items d
    if r.2 then
      (⟨r.1,
        k.totalprep_time_ - (d.prepTime : Int),
        k.countelaborate - (if isElaborate d then 1 else 0)⟩, true)
    else (k, false)
  else (k, false)

/-- `Kitchen::getPrepTimeSum` — returns the aggregate field directly. -/
def getPrepTimeSum (k : Kitchen) : Int := k.totalprep_time_

/-- `Kitchen::elaborateDishCount` — returns the aggregate field directly. -/
def elaborateDishCount (k : Kitchen) : Int := k.countelaborate

/-- `std::round` on the (here: exact rational) value of a C++ double:
round half away from zero. -/
def roundHalfAway (q : ℚ) : ℤ :=
  if q < 0 then -⌊-q + 1/2⌋ else ⌊q + 1/2⌋

/-- `Kitchen::calculateAvgPrepTime`: 0 when empty, otherwise
`std::round(totalprep_time_ / dish_count)`. -/
def calculateAvgPrepTime (k : Kitchen) : Int :=
  if k.items.length = 0 then 0
  else roundHalfAway ((k.totalprep_time_ : ℚ) / (k.items.length : ℚ))

/-- `Kitchen::calculateElaboratePercentage`: 0 when empty, otherwise
`std::round(((countelaborate / dish_count) * 100) * 100) / 100`. -/
def calculateElaboratePercentage (k : Kitchen) : ℚ :=
  if k.items.length = 0 then 0
  else
    (roundHalfAway (((k.countelaborate : ℚ) / (k.items.length : ℚ)) * 100 * 100) : ℚ) / 100

/-- The loop body of `Kitchen::tallyCuisineTypes`: count the stored dishes
whose cuisine rendering equals the given string exactly. -/
def countLabel (items : List Dish) (s : String) : Nat :=
  items.countP (fun d => d.getCuisineType == s)

/-- `Kitchen::tallyCuisineTypes` (Kitchen.cpp lines 152–165). -/
def tallyCuisineTypes (k : Kitchen) (s : String) : Nat :=
  countLabel k.items s

/-- The backward index loop shared (up to the match predicate) by
`releaseDishesBelowPrepTime` and `releaseDishesOfCuisineType`:
`for (int i = size-1; i >= 0; --i) if (p(items_[i])) remove(items_[i]);`
returning the updated contents and the number of successful removals.
The argument `i` is the number of indices still to visit (the C++ index is
`i - 1`). -/
def releaseMatchingLoop (p : Dish → Bool) : Nat → List Dish → List Dish × Nat
  | 0, items => (items, 0)
  | i + 1, items =>
    match items[i]? with
    | some d =>
      if p d then
        let r := bagRemove items d
        let rest := releaseMatchingLoop p i r.1
        (rest.1, (if r.2 then 1 else 0) + rest.2)
      else releaseMatchingLoop p i items
    | none => releaseMatchingLoop p i items

/-- `Kitchen::releaseDishesBelowPrepTime` (Kitchen.cpp lines 177–202):
negative threshold is ignored; threshold 0 clears the container (the inherited
`ArrayBag::clear` empties the container only — it cannot change the Kitchen's
private aggregate fields); otherwise the backward loop removes each dish with
prep time strictly below the threshold via the inherited `ArrayBag::remove`,
which likewise leaves the aggregates untouched. -/
def releaseDishesBelowPrepTime (k : Kitchen) (t : Int) : Kitchen × Int :=
  if t < 0 then (k, 0)
  else if t = 0 then
    (⟨[], k.totalprep_time_, k.countelaborate⟩, (k.items.length : Int))
  else
    let r := releaseMatchingLoop (fun d => decide ((d.prepTime : Int) < t))
      k.items.length k.items
    (⟨r.1, k.totalprep_time_, k.countelaborate⟩, (r.2 : Int))

/-- The seven recognized cuisine labels, in the fixed report order. -/
def cuisineLabels : List String :=
  ["ITALIAN", "MEXICAN", "CHINESE", "INDIAN", "AMERICAN", "FRENCH", "OTHER"]

/-- `Kitchen::releaseDishesOfCuisineType` (Kitchen.cpp lines 219–263):
`"ALL"` clears the container (again via the inherited `clear`, aggregates
untouched); an unrecognized label returns 0 with no change; a recognized label
runs the backward loop removing each dish whose cuisine rendering equals the
label (the C++ code compares the strings directly; the enum `type` it computes
is never used afterwards). -/
def releaseDishesOfCuisineType (k : Kitchen) (s : String) : Kitchen × Int :=
  if s = "ALL" then
    (⟨[], k.totalprep_time_, k.countelaborate⟩, (k.items.length : Int))
  else if s ∈ cuisineLabels then
    let r := releaseMatchingLoop (fun d => d.getCuisineType == s)
      k.items.length k.items
    (⟨r.1, k.totalprep_time_, k.countelaborate⟩, (r.2 : Int))
  else (k, 0)

/-- Fixed-precision rendering of a (non-negative, two-decimal) double as
`std::fixed << std::setprecision(2)` prints it: integer part, a dot, and
exactly two fractional digits. -/
def formatFixed2 (q : ℚ) : String :=
  let c : Int := roundHalfAway (q * 100)
  toString (c / 100) ++ "." ++ (if c % 100 < 10 then "0" else "") ++ toString (c % 100)

/-- `Kitchen::kitchenReport` (Kitchen.cpp lines 287–317), as the text it
writes to stdout: one `cout` line per cuisine tally in the source's order,
then `"\nAVERAGE PREP TIME: ..."` (whose leading newline yields the blank
line), then the percentage line at two decimal places.  The C++ method is
`const`; the model is a pure function of the state. -/
def kitchenReport (k : Kitchen) : String :=
  "ITALIAN: " ++ toString (tallyCuisineTypes k "ITALIAN") ++ "\n" ++
  ("MEXICAN: " ++ toString (tallyCuisineTypes k "MEXICAN") ++ "\n") ++
  ("CHINESE: " ++ toString (tallyCuisineTypes k "CHINESE") ++ "\n") ++
  ("INDIAN: " ++ toString (tallyCuisineTypes k "INDIAN") ++ "\n") ++
  ("AMERICAN: " ++ toString (tallyCuisineTypes k "AMERICAN") ++ "\n") ++
  ("FRENCH: " ++ toString (tallyCuisineTypes k "FRENCH") ++ "\n") ++
  ("OTHER: " ++ toString (tallyCuisineTypes k "OTHER") ++ "\n") ++
  ("\n" ++ "AVERAGE PREP TIME: " ++ toString (calculateAvgPrepTime k) ++ "\n") ++
  ("ELABORATE: " ++ formatFixed2 (calculateElaboratePercentage k) ++ "%" ++ "\n")

/-- The report format as the spec describes it (§4.4): one `"<LABEL>: <count>"`
line per label in the fixed order, a blank line, the average line, and the
percentage line with exactly two decimal places. -/
def reportSpec (k : Kitchen) : String :=
  String.join (cuisineLabels.map
    (fun l => l ++ ": " ++ toString (tallyCuisineTypes k l) ++ "\n")) ++
  "\n" ++
  "AVERAGE PREP TIME: " ++ toString (calculateAvgPrepTime k) ++ "\n" ++
  "ELABORATE: " ++ formatFixed2 (calculateElaboratePercentage k) ++ "%" ++ "\n"

/-- The true prep-time sum over the currently stored dishes. -/
def truePrepSum (items : List Dish) : Nat :=
  (items.map Dish.prepTime).sum

/-- The true count of currently stored elaborate dishes. -/
def trueElabCount (items : List Dish) : Nat :=
  items.countP isElaborate

/-- One mutation call of the Kitchen interface. -/
inductive KOp where
  | order (d : Dish)
  | serve (d : Dish)
  | releaseBelow (t : Int)
  | releaseCuisine (s : String)

/-- Apply one mutation call, discarding its return value. -/
def applyOp (k : Kitchen) : KOp → Kitchen
  | .order d => (newOrder k d).1
  | .serve d => (serveDish k d).1
  | .releaseBelow t => (releaseDishesBelowPrepTime k t).1
  | .releaseCuisine s => (releaseDishesOfCuisineType k s).1

/-- The Kitchen state after a sequence of mutation calls on a fresh Kitchen. -/
def runOps (ops : List KOp) : Kitchen :=
  ops.foldl applyOp freshKitchen

/-! Concrete dishes used by the counterexamples and witnesses. -/

/-- A 59-minute dish (below the 60 threshold). -/
def d59 : Dish := ⟨"Soup", ["water"], 59, 5, .ITALIAN⟩

/-- A 60-minute dish (at the threshold). -/
def d60 : Dish := ⟨"Stew", ["beef"], 60, 12, .MEXICAN⟩

/-- A 61-minute dish (above the threshold). -/
def d61 : Dish := ⟨"Roast", ["pork"], 61, 15, .ITALIAN⟩

/-- An elaborate dish: 5 ingredients and 90 minutes of prep. -/
def dBig : Dish := ⟨"Feast", ["a", "b", "c", "d", "e"], 90, 30, .AMERICAN⟩

/-- Prep times 20 / 90 / 15 / 30, one of them elaborate. -/
def d20 : Dish := ⟨"Pasta", ["p", "q", "r"], 20, 12, .ITALIAN⟩

/-- See `d20`. -/
def d90 : Dish := ⟨"BeefStew", ["a", "b", "c", "d", "e"], 90, 20, .AMERICAN⟩

/-- See `d20`. -/
def d15 : Dish := ⟨"Tacos", ["t", "u", "v"], 15, 9, .MEXICAN⟩

/-- See `d20`. -/
def d30 : Dish := ⟨"Pizza", ["x", "y", "z"], 30, 14, .ITALIAN⟩

/-- An elaborate 60-minute dish. -/
def e60 : Dish := ⟨"Banquet", ["a", "b", "c", "d", "e"], 60, 25, .FRENCH⟩

/-- An elaborate 90-minute dish. -/
def e90 : Dish := ⟨"Gala", ["f", "g", "h", "i", "j"], 90, 40, .OTHER⟩

/-- The kitchen of the spec's rounding example: prep times 20, 90, 15, 30. -/
def kAvgEx : Kitchen := runOps [.order d20, .order d90, .order d15, .order d30]

/-- A kitchen holding 2 elaborate dishes out of 4. -/
def kElabEx : Kitchen := runOps [.order e60, .order e90, .order d15, .order d30]

/-- The kitchen holding the threshold-boundary dishes 59 / 60 / 61. -/
def kThreshEx : Kitchen := runOps [.order d59, .order d60, .order d61]

/-- The kitchen holding just the elaborate dish `dBig`. -/
def kBigEx : Kitchen := runOps [.order dBig]

/-! Helper lemmas. -/

/-- Every dish's cuisine rendering is one of the seven recognized labels. -/
lemma getCuisineType_mem_cuisineLabels (d : Dish) : d.getCuisineType ∈ cuisineLabels := by
  rcases d with ⟨n, ing, p, pr, c⟩
  cases c <;> simp [Dish.getCuisineType, cuisineLabels]

/-- The seven per-label counts of a dish list partition its length. -/
lemma countLabel_partition (items : List Dish) :
    countLabel items "ITALIAN" + countLabel items "MEXICAN" + countLabel items "CHINESE" +
      countLabel items "INDIAN" + countLabel items "AMERICAN" + countLabel items "FRENCH" +
      countLabel items "OTHER" = items.length := by
  induction items with
  | nil => rfl
  | cons d rest ih =>
    simp only [countLabel, List.countP_cons, List.length_cons] at ih ⊢
    have hmem := getCuisineType_mem_cuisineLabels d
    simp only [cuisineLabels, List.mem_cons, List.not_mem_nil, or_false] at hmem
    rcases hmem with h | h | h | h | h | h | h <;> simp [h] <;> omega

/-- A successful `newOrder` appends the dish and returns `true`;
this is the shape of the state it produces. -/
lemma newOrder_success_eq (k : Kitchen) (d : Dish) (hmem : d ∉ k.items)
    (hcap : k.items.length < DEFAULT_CAPACITY) :
    newOrder k d =
      (⟨k.items ++ [d],
        k.totalprep_time_ + (d.prepTime : Int),
        k.countelaborate + (if isElaborate d then 1 else 0)⟩, true) := by
  simp [newOrder, hmem, bagAdd, hcap]

/-! ### C4: add-then-serve round trip -/

/-- C4: for every kitchen state and dish whose `newOrder` succeeds, serving
that dish immediately afterwards restores exactly the pre-add state — the same
stored dishes and bit-identical aggregate integers — with `serveDish`
returning `true`. -/
theorem c4_newOrder_serveDish_roundtrip (k : Kitchen) (d : Dish)
    (h : (newOrder k d).2 = true) :
    serveDish (newOrder k d).1 d = (k, true) := by
  by_cases hmem : d ∈ k.items
  · simp [newOrder, hmem] at h
  · by_cases hcap : k.items.length < DEFAULT_CAPACITY
    · rw [newOrder_success_eq k d hmem hcap]
      have hd : d ∈ k.items ++ [d] := by simp
      have herase : (k.items ++ [d]).erase d = k.items := by
        rw [List.erase_append_right _ hmem]
        simp
      simp [serveDish, hd, bagRemove, herase]
    · simp [newOrder, hmem, bagAdd, hcap] at h

/-- Witness for C4 at a concrete input. -/
theorem c4_roundtrip_witness :
    (newOrder freshKitchen d59).2 = true ∧
      serveDish (newOrder freshKitchen d59).1 d59 = (freshKitchen, true) :=
  ⟨by decide, c4_newOrder_serveDish_roundtrip freshKitchen d59 (by decide)⟩

/-! ### C5: duplicate rejection -/

/-- C5: if a dish equal by full value equality is already stored, `newOrder`
returns `false` and changes nothing; consequently a second back-to-back
`newOrder` of the same dish value always returns `false` and leaves the state
exactly as after the first call. -/
theorem c5_duplicate_rejection (k : Kitchen) (d : Dish) :
    (d ∈ k.items → newOrder k d = (k, false)) ∧
      newOrder (newOrder k d).1 d = ((newOrder k d).1, false) := by
  refine ⟨fun h => by simp [newOrder, h], ?_⟩
  by_cases hmem : d ∈ k.items
  · simp [newOrder, hmem]
  · by_cases hcap : k.items.length < DEFAULT_CAPACITY
    · rw [newOrder_success_eq k d hmem hcap]
      have hd : d ∈ k.items ++ [d] := by simp
      simp [newOrder, hd]
    · have hfail : newOrder k d = (k, false) := by
        simp [newOrder, hmem, bagAdd, hcap]
      rw [hfail]
      simp [newOrder, hmem, bagAdd, hcap]

/-- Witness for C5 at a concrete input: the kitchen already holding `d59`
rejects a second `d59` and is left unchanged. -/
theorem c5_duplicate_witness :
    d59 ∈ ((newOrder freshKitchen d59).1).items ∧
      newOrder ((newOrder freshKitchen d59).1) d59 = ((newOrder freshKitchen d59).1, false) :=
  ⟨by decide, (c5_duplicate_rejection ((newOrder freshKitchen d59).1) d59).1 (by decide)⟩

/-! ### C6: unrecognized cuisine label -/

/-- C6: a string that is none of the seven recognized labels tallies to zero,
and (when it is also not `"ALL"`) `releaseDishesOfCuisineType` removes nothing,
returns 0 and leaves the kitchen unchanged. -/
theorem c6_unrecognized_label (k : Kitchen) (s : String) (h : s ∉ cuisineLabels) :
    tallyCuisineTypes k s = 0 ∧
      (s ≠ "ALL" → releaseDishesOfCuisineType k s = (k, 0)) := by
  constructor
  · rw [tallyCuisineTypes, countLabel, List.countP_eq_zero]
    intro d _ hmatch
    rw [beq_iff_eq] at hmatch
    exact h (hmatch ▸ getCuisineType_mem_cuisineLabels d)
  · intro hall
    rw [releaseDishesOfCuisineType, if_neg hall, if_neg h]

/-- Witness for C6 at a concrete input: the label `"FUSION"`. -/
theorem c6_unrecognized_witness :
    "FUSION" ∉ cuisineLabels ∧
      tallyCuisineTypes kThreshEx "FUSION" = 0 ∧
      ("FUSION" ≠ "ALL" → releaseDishesOfCuisineType kThreshEx "FUSION" = (kThreshEx, 0)) :=
  ⟨by decide, c6_unrecognized_label kThreshEx "FUSION" (by decide)⟩

/-! ### C10: cuisine tallies partition the kitchen -/

/-- C10: the seven tallies in the report order sum to the number of stored
dishes — each dish is counted in exactly one tally.  (In the model every
dish's cuisine tag renders to one of the seven labels, so the claim's
hypothesis holds of every kitchen state.) -/
theorem c10_tally_partition (k : Kitchen) :
    tallyCuisineTypes k "ITALIAN" + tallyCuisineTypes k "MEXICAN" +
      tallyCuisineTypes k "CHINESE" + tallyCuisineTypes k "INDIAN" +
      tallyCuisineTypes k "AMERICAN" + tallyCuisineTypes k "FRENCH" +
      tallyCuisineTypes k "OTHER" = k.items.length :=
  countLabel_partition k.items

/-! ### C1–C3: the bulk-removal operations never update the aggregates

`releaseDishesBelowPrepTime` and `releaseDishesOfCuisineType` call the
inherited `ArrayBag::remove` / `ArrayBag::clear` directly, which cannot touch
the Kitchen's private `totalprep_time_` / `countelaborate` fields, so the
aggregates keep their pre-call values although the dishes are gone.  This
contradicts the documented meaning of `getPrepTimeSum` and
`elaborateDishCount` in `Kitchen.hpp`. -/

/-- C1 fails on the code: after `newOrder` of the elaborate 90-minute dish
`dBig` followed by `releaseDishesBelowPrepTime 0`, the kitchen stores no
dishes, yet `getPrepTimeSum` still returns 90 (true sum 0) and
`elaborateDishCount` still returns 1 (true count 0). -/
theorem c1_aggregates_diverge_after_release :
    (runOps [.order dBig, .releaseBelow 0]).items = [] ∧
      getPrepTimeSum (runOps [.order dBig, .releaseBelow 0]) = 90 ∧
      elaborateDishCount (runOps [.order dBig, .releaseBelow 0]) = 1 ∧
      truePrepSum (runOps [.order dBig, .releaseBelow 0]).items = 0 ∧
      trueElabCount (runOps [.order dBig, .releaseBelow 0]).items = 0 :=
  ⟨rfl, rfl, rfl, rfl, rfl⟩

/-- C2 fails on the code: on the kitchen holding only `dBig` (prep sum 90,
elaborate count 1), both "remove all" calls do empty the kitchen and return
the prior size 1, but the aggregates remain 90 and 1 instead of being reset
to zero. -/
theorem c2_release_all_keeps_aggregates :
    releaseDishesBelowPrepTime kBigEx 0 =
        (⟨[], 90, 1⟩, 1) ∧
      releaseDishesOfCuisineType kBigEx "ALL" =
        (⟨[], 90, 1⟩, 1) ∧
      getPrepTimeSum (releaseDishesBelowPrepTime kBigEx 0).1 ≠ 0 ∧
      elaborateDishCount (releaseDishesOfCuisineType kBigEx "ALL").1 ≠ 0 :=
  ⟨rfl, rfl, by decide, by decide⟩

/-- C3 fails on the code: on the kitchen with prep times 59 / 60 / 61,
`releaseDishesBelowPrepTime 60` does remove exactly the 59-minute dish and
return 1 (the strict-`<` boundary part of the claim holds), but
`getPrepTimeSum` stays at 180 instead of being decremented to the 121 that a
`serveDish` of the removed dish would have produced. -/
theorem c3_threshold_release_keeps_aggregates :
    releaseDishesBelowPrepTime kThreshEx 60 =
        (⟨[d60, d61], 180, 0⟩, 1) ∧
      truePrepSum [d60, d61] = 121 ∧
      getPrepTimeSum (serveDish kThreshEx d59).1 = 121 :=
  ⟨rfl, rfl, rfl⟩

/-! ### C9: the aggregates dominate the true folds -/

/-- The first component of the release loop is a sublist of its input. -/
lemma releaseMatchingLoop_fst_sublist (p : Dish → Bool) :
    ∀ (i : Nat) (items : List Dish), (releaseMatchingLoop p i items).1.Sublist items := by
  intro i
  induction i with
  | zero => intro items; exact List.Sublist.refl items
  | succ i ih =>
    intro items
    rw [releaseMatchingLoop]
    cases hget : items[i]? with
    | none => exact ih items
    | some d =>
      by_cases hp : p d
      · simp only [hp, if_true]
        by_cases hd : d ∈ items
        · simp only [bagRemove, hd, if_pos]
          exact (ih (items.erase d)).trans (List.erase_sublist d items)
        · simp only [bagRemove, hd, if_neg, not_false_iff]
          exact ih items
      · simp only [hp, if_false]
        exact ih items

/-- A sublist of the stored dishes has a smaller or equal true prep sum. -/
lemma truePrepSum_sublist_le {l₁ l₂ : List Dish} (h : l₁.Sublist l₂) :
    truePrepSum l₁ ≤ truePrepSum l₂ :=
  List.Sublist.sum_le_sum (h.map Dish.prepTime) (fun a _ => Nat.zero_le a)

/-- A sublist of the stored dishes has a smaller or equal elaborate count. -/
lemma trueElabCount_sublist_le {l₁ l₂ : List Dish} (h : l₁.Sublist l₂) :
    trueElabCount l₁ ≤ trueElabCount l₂ :=
  List.Sublist.countP_le isElaborate h

/-- Erasing a stored dish removes exactly its prep-time contribution. -/
lemma truePrepSum_erase {items : List Dish} {d : Dish} (h : d ∈ items) :
    truePrepSum (items.erase d) + d.prepTime = truePrepSum items := by
  have hp := (List.perm_cons_erase h).map Dish.prepTime
  have := hp.sum_eq
  simp only [truePrepSum, List.map_cons, List.sum_cons] at this ⊢
  omega

/-- Erasing a stored dish removes exactly its elaborate-count contribution. -/
lemma trueElabCount_erase {items : List Dish} {d : Dish} (h : d ∈ items) :
    trueElabCount (items.erase d) + (if isElaborate d then 1 else 0) =
      trueElabCount items := by
  have hp := (List.perm_cons_erase h).countP_eq isElaborate
  simp only [trueElabCount, List.countP_cons] at hp ⊢
  omega

/-- The sound direction of the aggregate bookkeeping: the stored aggregate
fields dominate the true folds over the current contents. -/
def AggInv (k : Kitchen) : Prop :=
  (truePrepSum k.items : Int) ≤ k.totalprep_time_ ∧
    (trueElabCount k.items : Int) ≤ k.countelaborate

/-- Every single mutation call preserves `AggInv`. -/
lemma aggInv_applyOp {k : Kitchen} (h : AggInv k) (op : KOp) : AggInv (applyOp k op) := by
  obtain ⟨h1, h2⟩ := h
  cases op with
  | order d =>
    show AggInv (newOrder k d).1
    by_cases hmem : d ∈ k.items
    · simpa [newOrder, hmem] using ⟨h1, h2⟩
    · by_cases hcap : k.items.length < DEFAULT_CAPACITY
      · rw [newOrder_success_eq k d hmem hcap]
        have hn : truePrepSum (k.items ++ [d]) = truePrepSum k.items + d.prepTime := by
          simp [truePrepSum]
        have hcnt : trueElabCount (k.items ++ [d]) =
            trueElabCount k.items + (if isElaborate d then 1 else 0) := by
          simp [trueElabCount, List.countP_append, List.countP_cons]
        constructor
        · show (truePrepSum (k.items ++ [d]) : Int) ≤
            k.totalprep_time_ + (d.prepTime : Int)
          rw [hn]; omega
        · show (trueElabCount (k.items ++ [d]) : Int) ≤
            k.countelaborate + (if isElaborate d then 1 else 0)
          rw [hcnt]
          by_cases he : isElaborate d = true
          · simp only [if_pos he]; omega
          · simp only [if_neg he]; omega
      · simpa [newOrder, hmem, bagAdd, hcap] using ⟨h1, h2⟩
  | serve d =>
    show AggInv (serveDish k d).1
    by_cases hmem : d ∈ k.items
    · have hsum := truePrepSum_erase hmem
      have hcnt := trueElabCount_erase hmem
      have hres : (serveDish k d).1 =
          ⟨k.items.erase d,
            k.totalprep_time_ - (d.prepTime : Int),
            k.countelaborate - (if isElaborate d then 1 else 0)⟩ := by
        simp [serveDish, hmem, bagRemove]
      rw [hres]
      constructor
      · show (truePrepSum (k.items.erase d) : Int) ≤
          k.totalprep_time_ - (d.prepTime : Int)
        omega
      · show (trueElabCount (k.items.erase d) : Int) ≤
          k.countelaborate - (if isElaborate d then 1 else 0)
        by_cases he : isElaborate d = true
        · simp only [if_pos he] at hcnt ⊢; omega
        · simp only [if_neg he] at hcnt ⊢; omega
    · simpa [serveDish, hmem] using ⟨h1, h2⟩
  | releaseBelow t =>
    show AggInv (releaseDishesBelowPrepTime k t).1
    rw [releaseDishesBelowPrepTime]
    by_cases hneg : t < 0
    · simpa [hneg] using ⟨h1, h2⟩
    · by_cases hzero : t = 0
      · refine ⟨?_, ?_⟩ <;> simp [hneg, hzero, truePrepSum, trueElabCount] <;> omega
      · have hsub := releaseMatchingLoop_fst_sublist
          (fun d => decide ((d.prepTime : Int) < t)) k.items.length k.items
        have hs := truePrepSum_sublist_le hsub
        have hc := trueElabCount_sublist_le hsub
        simp only [hneg, hzero, if_false]
        exact ⟨by simp; omega, by simp; omega⟩
  | releaseCuisine s =>
    show AggInv (releaseDishesOfCuisineType k s).1
    rw [releaseDishesOfCuisineType]
    by_cases hall : s = "ALL"
    · refine ⟨?_, ?_⟩ <;> simp [hall, truePrepSum, trueElabCount] <;> omega
    · by_cases hrec : s ∈ cuisineLabels
      · have hsub := releaseMatchingLoop_fst_sublist
          (fun d => d.getCuisineType == s) k.items.length k.items
        have hs := truePrepSum_sublist_le hsub
        have hc := trueElabCount_sublist_le hsub
        simp only [hall, hrec, if_false, if_true]
        exact ⟨by simp; omega, by simp; omega⟩
      · simpa [hall, hrec] using ⟨h1, h2⟩

/-- `AggInv` is preserved along any fold of mutation calls. -/
lemma aggInv_foldl (ops : List KOp) :
    ∀ k : Kitchen, AggInv k → AggInv (ops.foldl applyOp k) := by
  induction ops with
  | nil => intro k h; exact h
  | cons op rest ih => intro k h; exact ih (applyOp k op) (aggInv_applyOp h op)

/-- C9: after any sequence of mutation calls on a fresh Kitchen, the two
aggregate fields are non-negative and dominate the true prep-time sum and the
true elaborate count over the currently stored dishes (each stored dish's
contribution is added exactly once and subtracted at most once). -/
theorem c9_aggregates_dominate_truth (ops : List KOp) :
    0 ≤ getPrepTimeSum (runOps ops) ∧
      0 ≤ elaborateDishCount (runOps ops) ∧
      (truePrepSum (runOps ops).items : Int) ≤ getPrepTimeSum (runOps ops) ∧
      (trueElabCount (runOps ops).items : Int) ≤ elaborateDishCount (runOps ops) := by
  have h := aggInv_foldl ops freshKitchen ⟨by simp [freshKitchen, truePrepSum], by simp [freshKitchen, trueElabCount]⟩
  obtain ⟨h1, h2⟩ := h
  refine ⟨?_, ?_, h1, h2⟩
  · exact le_trans (by positivity) h1
  · exact le_trans (by positivity) h2

/-! ### C7: the two derived statistics queries -/

/-- C7: `calculateAvgPrepTime` returns 0 on an empty kitchen and otherwise the
prep-time total divided by the size, rounded to the nearest integer with
halves away from zero — equivalently, for the non-negative values arising in
practice, `(2·total + size) / (2·size)` in integer division; prep times
20/90/15/30 average to 39.  `calculateElaboratePercentage` returns 0 on an
empty kitchen, and 2 elaborate dishes out of 4 give exactly 50.00 percent. -/
theorem c7_average_and_percentage (k k2 : Kitchen)
    (hEmpty : k.items = []) (hNe : k2.items.length ≠ 0) (hNonneg : 0 ≤ k2.totalprep_time_) :
    calculateAvgPrepTime k = 0 ∧
      calculateElaboratePercentage k = 0 ∧
      calculateAvgPrepTime k2 =
        (2 * k2.totalprep_time_ + (k2.items.length : Int)) / (2 * (k2.items.length : Int)) ∧
      calculateAvgPrepTime kAvgEx = 39 ∧
      calculateElaboratePercentage kElabEx = 50 ∧
      formatFixed2 (calculateElaboratePercentage kElabEx) = "50.00" := by
  have hAvgEx : kAvgEx = ⟨[d20, d90, d15, d30], 155, 1⟩ := by decide
  have hElabEx : kElabEx = ⟨[e60, e90, d15, d30], 195, 2⟩ := by decide
  have hpct : calculateElaboratePercentage kElabEx = 50 := by
    rw [hElabEx]
    norm_num [calculateElaboratePercentage, roundHalfAway]
  refine ⟨?_, ?_, ?_, ?_, hpct, ?_⟩
  · simp [calculateAvgPrepTime, hEmpty]
  · simp [calculateElaboratePercentage, hEmpty]
  · have hn : (0:ℚ) < (k2.items.length : ℚ) := by
      have : 0 < k2.items.length := Nat.pos_of_ne_zero hNe
      exact_mod_cast this
    have hq : (0:ℚ) ≤ (k2.totalprep_time_ : ℚ) / (k2.items.length : ℚ) := by
      apply div_nonneg _ (le_of_lt hn)
      exact_mod_cast hNonneg
    rw [calculateAvgPrepTime, if_neg hNe, roundHalfAway, if_neg (not_lt.mpr hq)]
    have heq : (k2.totalprep_time_ : ℚ) / (k2.items.length : ℚ) + 1/2 =
        ((2 * k2.totalprep_time_ + (k2.items.length : Int) : Int) : ℚ) /
          ((2 * k2.items.length : Nat) : ℚ) := by
      field_simp
      ring
    rw [heq, Rat.floor_intCast_div_natCast]
    push_cast
    ring_nf
  · rw [hAvgEx]
    norm_num [calculateAvgPrepTime, roundHalfAway]
  · rw [hpct]
    have h5000 : roundHalfAway ((50:ℚ) * 100) = 5000 := by norm_num [roundHalfAway]
    simp only [formatFixed2, h5000]
    rfl

/-- Witness for C7 at concrete inputs: the fresh Kitchen for the empty case
and the 20/90/15/30 kitchen for the general rounding formula. -/
theorem c7_average_and_percentage_witness :
    freshKitchen.items = [] ∧ kAvgEx.items.length ≠ 0 ∧ 0 ≤ kAvgEx.totalprep_time_ ∧
      (calculateAvgPrepTime freshKitchen = 0 ∧
        calculateElaboratePercentage freshKitchen = 0 ∧
        calculateAvgPrepTime kAvgEx =
          (2 * kAvgEx.totalprep_time_ + (kAvgEx.items.length : Int)) /
            (2 * (kAvgEx.items.length : Int)) ∧
        calculateAvgPrepTime kAvgEx = 39 ∧
        calculateElaboratePercentage kElabEx = 50 ∧
        formatFixed2 (calculateElaboratePercentage kElabEx) = "50.00") :=
  ⟨rfl, by decide, by decide,
    c7_average_and_percentage freshKitchen kAvgEx rfl (by decide) (by decide)⟩

/-! ### C8: the report composition -/

/-- C8: the report text equals, for every kitchen state, exactly the format
the spec describes — one `"<LABEL>: <count>"` line per label in the fixed
order with each count from `tallyCuisineTypes`, a blank line, the
`"AVERAGE PREP TIME: <calculateAvgPrepTime>"` line, and the
`"ELABORATE: <calculateElaboratePercentage to two decimals>%"` line.  The
model of the `const` C++ method is a pure function of the state, so the
operation mutates nothing. -/
theorem c8_report_format (k : Kitchen) : kitchenReport k = reportSpec k := by
  have h1 : ∀ s : String, "ITALIAN" ++ (": " ++ s) = "ITALIAN: " ++ s := fun _ => rfl
  have h2 : ∀ s : String, "MEXICAN" ++ (": " ++ s) = "MEXICAN: " ++ s := fun _ => rfl
  have h3 : ∀ s : String, "CHINESE" ++ (": " ++ s) = "CHINESE: " ++ s := fun _ => rfl
  have h4 : ∀ s : String, "INDIAN" ++ (": " ++ s) = "INDIAN: " ++ s := fun _ => rfl
  have h5 : ∀ s : String, "AMERICAN" ++ (": " ++ s) = "AMERICAN: " ++ s := fun _ => rfl
  have h6 : ∀ s : String, "FRENCH" ++ (": " ++ s) = "FRENCH: " ++ s := fun _ => rfl
  have h7 : ∀ s : String, "OTHER" ++ (": " ++ s) = "OTHER: " ++ s := fun _ => rfl
  have h8 : ∀ s : String, "\n" ++ ("AVERAGE PREP TIME: " ++ s) =
      "\nAVERAGE PREP TIME: " ++ s := fun _ => rfl
  simp only [kitchenReport, reportSpec, cuisineLabels, List.map, String.join, List.foldl,
    String.empty_append, String.append_assoc, h1, h2, h3, h4, h5, h6, h7, h8]

end KitchenSpec
